import Mathlib

/-!
Verification development for the ezthrottle-node SDK.

The definitions below are a shallow embedding of the TypeScript sources:
`src/step.ts` (the `Step` builder, its payload compiler `_buildJobPayload` /
`_buildFallbackChain`, and the execution engine `execute` / `_executeFrugal` /
`_tryLocalFallbacks` / `_executePerformance`) and `src/webhookUtils.ts`
(`verifyWebhookSignature`, `tryVerifyWithSecrets`).

Modelling conventions:
* Machine numbers (HTTP status codes, counters, timeouts) are `Nat`;
  timestamps and tolerances are `Int` (JS numbers used only additively).
* JS records with string keys are association lists `List (String × String)`;
  `Record<string, any>` values are modelled as strings (only presence and
  verbatim copying of these fields matter to the code under study).
* Fallible code returns `Except String`; a thrown JS exception is the
  `.error` case carrying the message.
* The external `uuidv4()` generator is modelled as an injective fresh-name
  supply indexed by a counter that is threaded through compilation and
  execution, so "mint a fresh key per compilation" is expressible.
* HMAC-SHA256 (`crypto.createHmac`) is a cryptographic primitive outside the
  repository; the verifier is parametrised over an arbitrary digest function
  `hmac : String → String → String`.
* The local HTTP collaborator (`fetch`) is modelled as a function from the
  target URL to an outcome (a status/body response, or a network-level
  failure which also covers the abort-on-timeout path); the remote
  submission collaborator (`client.submitJob`) as a function from the
  compiled payload to an outcome.  Execution returns, besides its value,
  the ordered trace of collaborator interactions it awaited, plus the
  detached launches it scheduled; work spawned via `setImmediate` is
  recorded as a `spawnDetached` event and its own effects are *not* part of
  the awaited trace (fire-and-forget).
-/

namespace EZThrottle

/-- `StepType` from `src/stepType.ts`. -/
inductive StepType where
  | FRUGAL
  | PERFORMANCE
deriving DecidableEq, Repr

/-- `IdempotentStrategy` from `src/idempotentStrategy.ts`. -/
inductive IdempotentStrategy where
  | HASH
  | UNIQUE
deriving DecidableEq, Repr

/-- A stored fallback trigger (`Partial<FallbackTrigger>` in `src/types.ts`):
`{}` (no trigger — always eligible), `{type: 'on_error', codes}`, or
`{type: 'on_timeout', timeout_ms}`. -/
inductive Trigger where
  | empty
  | onError (codes : List Nat)
  | onTimeout (timeoutMs : Nat)
deriving DecidableEq, Repr

/-- `WebhookConfig` from `src/types.ts`. -/
structure WebhookConfig where
  url : String
  regions : Option (List String)
  has_quorum_vote : Option Bool
deriving DecidableEq, Repr

/-- `RetryPolicy` from `src/types.ts`. -/
structure RetryPolicy where
  max_retries : Option Nat
  max_reroutes : Option Nat
  retry_codes : Option (List Nat)
  reroute_codes : Option (List Nat)
deriving DecidableEq, Repr

/-- The non-recursive configuration fields of a `Step`
(the `_url`, `_method`, … instance fields set in the constructor of
`src/step.ts`). -/
structure StepConfig where
  stepType : StepType
  url : Option String
  method : String
  headers : List (String × String)
  body : Option String
  metadata : List (String × String)
  webhooks : List WebhookConfig
  webhookQuorum : Nat
  regions : Option (List String)
  regionPolicy : String
  executionMode : String
  retryPolicy : Option RetryPolicy
  retryAt : Option Int
  idempotentKey : Option String
  idempotentStrategy : IdempotentStrategy
  fallbackOnError : List Nat
  localTimeout : Nat
  onFailureTimeoutMs : Option Nat
deriving DecidableEq, Repr

/-- A `Step` (from `src/step.ts`): its flat configuration, the ordered
`_fallbackSteps` list of `{step, trigger}` pairs, and the
`_onSuccessStep` / `_onFailureStep` continuation references. -/
inductive Step where
  | mk (cfg : StepConfig) (fallbackSteps : List (Step × Trigger))
       (onSuccessStep : Option Step) (onFailureStep : Option Step)

/-- The flat configuration of a step. -/
def Step.cfg : Step → StepConfig
  | .mk c _ _ _ => c

/-- The ordered `_fallbackSteps` list. -/
def Step.fallbackSteps : Step → List (Step × Trigger)
  | .mk _ f _ _ => f

/-- The `_onSuccessStep` continuation. -/
def Step.onSuccessStep : Step → Option Step
  | .mk _ _ o _ => o

/-- The `_onFailureStep` continuation. -/
def Step.onFailureStep : Step → Option Step
  | .mk _ _ _ o => o

/-- Field values installed by the `Step` constructor in `src/step.ts`. -/
def defaultStepConfig : StepConfig :=
  { stepType := .PERFORMANCE
    url := none
    method := "GET"
    headers := []
    body := none
    metadata := []
    webhooks := []
    webhookQuorum := 1
    regions := none
    regionPolicy := "fallback"
    executionMode := "race"
    retryPolicy := none
    retryAt := none
    idempotentKey := none
    idempotentStrategy := .HASH
    fallbackOnError := [429, 500, 502, 503, 504]
    localTimeout := 30000
    onFailureTimeoutMs := none }

/-- `new Step(client)`: a freshly constructed step. -/
def Step.new : Step := .mk defaultStepConfig [] none none

/-- Fluent setter `.type(stepType)`. -/
def Step.type : Step → StepType → Step
  | .mk c f o1 o2, t => .mk { c with stepType := t } f o1 o2

/-- Fluent setter `.url(url)`. -/
def Step.url : Step → String → Step
  | .mk c f o1 o2, u => .mk { c with url := some u } f o1 o2

/-- Fluent setter `.method(method)` (uppercases its argument). -/
def Step.method : Step → String → Step
  | .mk c f o1 o2, m => .mk { c with method := m.toUpper } f o1 o2

/-- Fluent setter `.body(body)`. -/
def Step.body : Step → String → Step
  | .mk c f o1 o2, b => .mk { c with body := some b } f o1 o2

/-- Fluent setter `.idempotentKey(key)`. -/
def Step.idempotentKey : Step → String → Step
  | .mk c f o1 o2, k => .mk { c with idempotentKey := some k } f o1 o2

/-- Fluent setter `.idempotentStrategy(strategy)`. -/
def Step.idempotentStrategy : Step → IdempotentStrategy → Step
  | .mk c f o1 o2, st => .mk { c with idempotentStrategy := st } f o1 o2

/-- Fluent setter `.fallbackOnError(codes)`. -/
def Step.fallbackOnError : Step → List Nat → Step
  | .mk c f o1 o2, codes => .mk { c with fallbackOnError := codes } f o1 o2

/-- Fluent setter `.fallback(step, {triggerOnError, triggerOnTimeout})`.
JS truthiness: a supplied array (even empty) selects `on_error`; a supplied
timeout selects `on_timeout` unless it is the falsy number `0`. -/
def Step.fallback (s : Step) (fb : Step)
    (triggerOnError : Option (List Nat)) (triggerOnTimeout : Option Nat) : Step :=
  let trigger : Trigger :=
    match triggerOnError with
    | some codes => .onError codes
    | none =>
      match triggerOnTimeout with
      | some ms => if ms = 0 then .empty else .onTimeout ms
      | none => .empty
  match s with
  | .mk c f o1 o2 => .mk c (f ++ [(fb, trigger)]) o1 o2

/-- Fluent setter `.onSuccess(step)`. -/
def Step.onSuccess : Step → Step → Step
  | .mk c f _ o2, t => .mk c f (some t) o2

/-- Fluent setter `.onFailure(step, timeoutMs)` (a falsy `0`/absent timeout
leaves `_onFailureTimeoutMs` unchanged). -/
def Step.onFailure (s : Step) (t : Step) (timeoutMs : Option Nat) : Step :=
  match s with
  | .mk c f o1 _ =>
    let c' := match timeoutMs with
      | some ms => if ms = 0 then c else { c with onFailureTimeoutMs := some ms }
      | none => c
    .mk c' f o1 (some t)

/-- The flat fields of a compiled `JobPayload` (from `src/types.ts`),
including the `trigger` field attached to fallback-chain nodes.
`none` means the field is omitted from the wire payload. -/
structure PayloadFields where
  url : String
  method : String
  headers : Option (List (String × String))
  body : Option String
  metadata : Option (List (String × String))
  webhooks : Option (List WebhookConfig)
  webhookQuorum : Option Nat
  regions : Option (List String)
  regionPolicy : Option String
  executionMode : Option String
  retryPolicy : Option RetryPolicy
  retryAt : Option Int
  idempotentKey : Option String
  onFailureTimeoutMs : Option Nat
  trigger : Option Trigger
deriving DecidableEq, Repr

/-- A compiled `JobPayload` (recursive through `fallbackJob`, `onSuccess`
and `onFailure`). -/
inductive JobPayload where
  | mk (fields : PayloadFields) (fallbackJob : Option JobPayload)
       (onSuccess : Option JobPayload) (onFailure : Option JobPayload)

/-- The flat fields of a payload. -/
def JobPayload.fields : JobPayload → PayloadFields
  | .mk f _ _ _ => f

/-- The nested `fallbackJob` payload, if any. -/
def JobPayload.fallbackJob : JobPayload → Option JobPayload
  | .mk _ fb _ _ => fb

/-- The nested `onSuccess` payload, if any. -/
def JobPayload.onSuccess : JobPayload → Option JobPayload
  | .mk _ _ os _ => os

/-- The nested `onFailure` payload, if any. -/
def JobPayload.onFailure : JobPayload → Option JobPayload
  | .mk _ _ _ ofl => ofl

/-- Model of the external `uuidv4()` generator: an injective fresh-name
supply indexed by the global mint counter. -/
def uuidv4 (c : Nat) : String := String.mk ('u' :: List.replicate c 'u')

/-- Key minting when no (truthy) explicit key is set: `UNIQUE` mints a fresh
identifier and advances the counter, `HASH` omits the key. -/
def resolveKeyStrategy : IdempotentStrategy → Nat → Option String × Nat
  | .UNIQUE, c => (some (uuidv4 c), c + 1)
  | .HASH, c => (none, c)

/-- Idempotent-key resolution in `_buildJobPayload`:
`if (this._idempotentKey) payload.idempotentKey = this._idempotentKey;
else if (strategy === UNIQUE) payload.idempotentKey = uuidv4();`.
JS truthiness: the empty string does not count as an explicit key. -/
def resolveKey (cfg : StepConfig) (c : Nat) : Option String × Nat :=
  match cfg.idempotentKey with
  | some k => if k = "" then resolveKeyStrategy cfg.idempotentStrategy c else (some k, c)
  | none => resolveKeyStrategy cfg.idempotentStrategy c

/-- One chain-lowering step of `_buildFallbackChain`: the compiled branch
payload receives its originating trigger, and — when a chain of later
siblings exists — that chain *overwrites* its `fallbackJob` field
(`if (fallbackJob) currentFallback.fallbackJob = fallbackJob`). -/
def attachChain : JobPayload → Trigger → Option JobPayload → JobPayload
  | .mk f fb os ofl, trg, tail =>
    .mk { f with trigger := some trg }
      (match tail with
       | none => fb
       | some t => some t)
      os ofl

/-- The flat wire fields emitted by `_buildJobPayload` for a configuration:
each optional field is omitted when it is JS-falsy or equal to its
documented default (`method` and `url` are always present). -/
def payloadFieldsOf (cfg : StepConfig) (u : String) (key : Option String) :
    PayloadFields :=
  { url := u
    method := cfg.method
    headers := if cfg.headers = [] then none else some cfg.headers
    body := match cfg.body with
      | some b => if b = "" then none else some b
      | none => none
    metadata := if cfg.metadata = [] then none else some cfg.metadata
    webhooks := if cfg.webhooks = [] then none else some cfg.webhooks
    webhookQuorum := if cfg.webhookQuorum = 1 then none else some cfg.webhookQuorum
    regions := cfg.regions
    regionPolicy := if cfg.regionPolicy = "fallback" then none else some cfg.regionPolicy
    executionMode := if cfg.executionMode = "race" then none else some cfg.executionMode
    retryPolicy := cfg.retryPolicy
    retryAt := cfg.retryAt
    idempotentKey := key
    onFailureTimeoutMs := cfg.onFailureTimeoutMs
    trigger := none }

mutual

/-- `Step._buildJobPayload` from `src/step.ts`: throws when no URL is
configured; otherwise copies set fields, omitting each JS-falsy or
default-valued optional field; resolves the idempotent key; lowers the
fallback branches into a chain; and recursively compiles the
`onSuccess` / `onFailure` continuations. -/
def buildJobPayload : Step → Nat → Except String (JobPayload × Nat)
  | .mk cfg fbs os ofl, c =>
    match cfg.url with
    | none => .error "URL is required"
    | some u =>
      match resolveKey cfg c with
      | (key, c1) =>
        match buildChain fbs c1 with
        | .error e => .error e
        | .ok (fj, c2) =>
          match buildOpt os c2 with
          | .error e => .error e
          | .ok (osp, c3) =>
            match buildOpt ofl c3 with
            | .error e => .error e
            | .ok (ofp, c4) =>
              .ok (JobPayload.mk (payloadFieldsOf cfg u key) fj osp ofp, c4)
termination_by s _ => sizeOf s
decreasing_by all_goals (simp_wf; try omega)

/-- Compile an optional continuation step. -/
def buildOpt : Option Step → Nat → Except String (Option JobPayload × Nat)
  | none, c => .ok (none, c)
  | some s, c =>
    match buildJobPayload s c with
    | .error e => .error e
    | .ok (p, c') => .ok (some p, c')
termination_by o _ => sizeOf o
decreasing_by all_goals (simp_wf; try omega)

/-- `Step._buildFallbackChain`: walks the branch list so that the *last*
branch is compiled first and each branch carries the chain of its later
siblings as its nested `fallbackJob`, preserving declared order as
first-to-try.  Returns `none` for an empty branch list. -/
def buildChain : List (Step × Trigger) → Nat → Except String (Option JobPayload × Nat)
  | [], c => .ok (none, c)
  | (st, trg) :: rest, c =>
    match buildChain rest c with
    | .error e => .error e
    | .ok (tail, c1) =>
      match buildJobPayload st c1 with
      | .error e => .error e
      | .ok (p, c2) => .ok (some (attachChain p trg tail), c2)
termination_by l _ => sizeOf l
decreasing_by all_goals (simp_wf; try omega)

end

/-- The `(url, trigger)` spine of a compiled fallback chain, following
`fallbackJob` links. -/
def JobPayload.spine : JobPayload → List (String × Option Trigger)
  | .mk f fb _ _ =>
    (f.url, f.trigger) ::
      (match fb with
       | none => []
       | some t => t.spine)
termination_by p => sizeOf p
decreasing_by simp_wf; try omega

/-- The spine of an optional chain. -/
def spineOpt : Option JobPayload → List (String × Option Trigger)
  | none => []
  | some p => p.spine

/-- Outcome of one local HTTP attempt (`fetch` in `_executeLocal`):
a response, or a network-level failure (connection error, or the abort
fired by the local-timeout controller). -/
inductive HttpOutcome where
  | resp (status : Nat) (body : String)
  | netErr (msg : String)

/-- The local HTTP collaborator, as a function of the target URL. -/
abbrev Env := String → HttpOutcome

/-- The parsed response of a successful remote submission
(`client.submitJob`); the engine only inspects its `status` string. -/
structure RemoteResult where
  status : String
deriving DecidableEq, Repr

/-- Outcome of one remote submission: a parsed job descriptor, or a thrown
error (rate-limit, transport failure, rejection). -/
inductive SubmitOutcome where
  | ok (r : RemoteResult)
  | err (msg : String)

/-- The remote submission collaborator. -/
abbrev Submitter := JobPayload → SubmitOutcome

/-- The `LocalExecutionResult` record literal returned by `_executeFrugal`. -/
structure LocalResult where
  status : String
  executed_locally : Bool
  status_code : Nat
  response : Option String
  error : Option String
deriving DecidableEq, Repr

/-- A resolved value of `execute()`: a local-execution record, or the
parsed response of a remote submission. -/
inductive ExecValue where
  | localDone (r : LocalResult)
  | remoteDone (r : RemoteResult)
deriving DecidableEq, Repr

/-- The `.status` field read by `_tryLocalFallbacks` on a child result. -/
def ExecValue.statusStr : ExecValue → String
  | .localDone r => r.status
  | .remoteDone r => r.status

/-- `execute()` either resolves to a value or rejects with a thrown error. -/
inductive Outcome where
  | ok (v : ExecValue)
  | thrown (msg : String)
deriving DecidableEq, Repr

/-- One collaborator interaction awaited during execution, or a detached
launch scheduled by it. -/
inductive NetEvent where
  | localHttp (url : String)
  | submit (p : JobPayload)
  | spawnDetached (s : Step)

/-- Trigger matching in `_tryLocalFallbacks` (the `step.ts` variant:
`if (trigger && trigger.type)`): an `on_error` trigger fires on a truthy
error code contained in its code list, an `on_timeout` trigger always
fires, and an absent trigger makes the branch always eligible. -/
def shouldTrigger : Trigger → Option Nat → Bool
  | .onError codes, some e => decide (e ≠ 0) && codes.contains e
  | .onError _, none => false
  | .onTimeout _, _ => true
  | .empty, _ => true

/-- The detached launch scheduled on a local 2xx success
(`setImmediate(() => this._onSuccessStep.execute(client))`), when an
`onSuccess` step is configured. -/
def spawnEvents : Option Step → List NetEvent
  | some t => [.spawnDetached t]
  | none => []

/-- `_forwardToEZThrottle`: compile the step's full payload and hand it to
the submission collaborator; a compile failure is a thrown error before
any submission. -/
def forwardResult (sub : Submitter) (s : Step) (tr : List NetEvent) (c : Nat) :
    Outcome × List NetEvent × Nat :=
  match buildJobPayload s c with
  | .error m => (.thrown m, tr, c)
  | .ok (p, c1) =>
    match sub p with
    | .ok r => (.ok (.remoteDone r), tr ++ [.submit p], c1)
    | .err m => (.thrown m, tr ++ [.submit p], c1)

mutual

/-- `Step.execute(client)` from `src/step.ts`: requires a client; `FRUGAL`
steps run `_executeFrugal`, everything else `_executePerformance`.
Returns the outcome, the awaited trace of collaborator events, and the
advanced mint counter. -/
def exec (env : Env) (sub : Submitter) : Step → Bool → Nat →
    Outcome × List NetEvent × Nat
  | _, false, c =>
      (.thrown "Client is required. Pass client to execute() or Step(client)", [], c)
  | .mk cfg fbs os ofl, true, c =>
        match cfg.stepType with
        | .PERFORMANCE =>
          match buildJobPayload (.mk cfg fbs os ofl) c with
          | .error m => (.thrown m, [], c)
          | .ok (p, c1) =>
            match sub p with
            | .ok r => (.ok (.remoteDone r), [.submit p], c1)
            | .err m => (.thrown m, [.submit p], c1)
        | .FRUGAL =>
          match cfg.url with
          | none =>
            -- `_executeLocal` throws "URL is required" before any fetch;
            -- `_executeFrugal` catches it as a network-level failure.
            match tryFallbacks env sub fbs none c with
            | (some v, tr, c1) => (.ok v, tr, c1)
            | (none, tr, c1) => forwardResult sub (.mk cfg fbs os ofl) tr c1
          | some u =>
            match env u with
            | .netErr _ =>
              match tryFallbacks env sub fbs none c with
              | (some v, tr, c1) => (.ok v, .localHttp u :: tr, c1)
              | (none, tr, c1) =>
                forwardResult sub (.mk cfg fbs os ofl) (.localHttp u :: tr) c1
            | .resp st body =>
              if 200 ≤ st ∧ st < 300 then
                (.ok (.localDone
                  { status := "success", executed_locally := true
                    status_code := st, response := some body, error := none }),
                 .localHttp u :: spawnEvents os, c)
              else if cfg.fallbackOnError.contains st then
                match tryFallbacks env sub fbs (some st) c with
                | (some v, tr, c1) => (.ok v, .localHttp u :: tr, c1)
                | (none, tr, c1) =>
                  forwardResult sub (.mk cfg fbs os ofl) (.localHttp u :: tr) c1
              else
                (.ok (.localDone
                  { status := "failed", executed_locally := true
                    status_code := st, response := none
                    error := "Request failed: " ++ toString st }),
                 [.localHttp u], c)
termination_by s _ _ => sizeOf s
decreasing_by all_goals (simp_wf; try omega)

/-- `Step._tryLocalFallbacks` (the `step.ts` variant): walk the branches in
declared order; skip a branch whose trigger does not match and skip
`PERFORMANCE` branches; execute a matching `FRUGAL` branch and return its
result immediately when its `.status` is `'success'`; a thrown or
non-success branch falls through to the next sibling; `none` when all
branches are exhausted. -/
def tryFallbacks (env : Env) (sub : Submitter) :
    List (Step × Trigger) → Option Nat → Nat →
    Option ExecValue × List NetEvent × Nat
  | [], _, c => (none, [], c)
  | (st, trg) :: rest, ec, c =>
    if shouldTrigger trg ec then
      if st.cfg.stepType = .FRUGAL then
        match exec env sub st true c with
        | (.ok v, tr, c1) =>
          if v.statusStr = "success" then (some v, tr, c1)
          else
            match tryFallbacks env sub rest ec c1 with
            | (r, tr2, c2) => (r, tr ++ tr2, c2)
        | (.thrown _, tr, c1) =>
          match tryFallbacks env sub rest ec c1 with
          | (r, tr2, c2) => (r, tr ++ tr2, c2)
      else
        tryFallbacks env sub rest ec c
    else
      tryFallbacks env sub rest ec c
termination_by l _ _ => sizeOf l
decreasing_by all_goals (simp_wf; try omega)

end

/-! ### Webhook signature verification (`src/webhookUtils.ts`) -/

/-- `VerificationResult` from `src/webhookUtils.ts`. -/
structure VerificationResult where
  verified : Bool
  reason : String
deriving DecidableEq, Repr

/-- JS `String.prototype.split` with a single-character separator, on the
character list of a string. -/
def splitOnChar (sep : Char) : List Char → List (List Char)
  | [] => [[]]
  | c :: rest =>
    match splitOnChar sep rest with
    | [] => if c = sep then [[], []] else [[c]]
    | h :: t => if c = sep then [] :: h :: t else (c :: h) :: t

/-- JS `s.split(sep)` for a one-character separator. -/
def jsSplit (s : String) (sep : Char) : List String :=
  (splitOnChar sep s.data).map String.mk

/-- Header parsing in `verifyWebhookSignature`: split on `','`, split each
part on `'='` keeping the first two components, skip falsy (empty) keys or
values, later assignments to the same key overwrite earlier ones. -/
def partsOf (header : String) : List (String × String) :=
  (jsSplit header ',').foldl
    (fun acc part =>
      match jsSplit part '=' with
      | key :: value :: _ =>
        if key = "" ∨ value = "" then acc else acc ++ [(key, value)]
      | _ => acc)
    []

/-- Read a component of the parsed header (last assignment wins, as for a
JS object). -/
def getPart (ps : List (String × String)) (k : String) : Option String :=
  ((ps.reverse).find? (fun kv => kv.1 == k)).map (fun kv => kv.2)

/-- `parts['t'] || '0'`. -/
def headerTStr (header : String) : String := (getPart (partsOf header) "t").getD "0"

/-- `parts['v1'] || ''`. -/
def headerV1 (header : String) : String := (getPart (partsOf header) "v1").getD ""

/-- JS `parseInt(s, 10)`: skip leading whitespace, optional sign, parse the
leading run of digits; `none` models `NaN`. -/
def parseIntJS (s : String) : Option Int :=
  let digitsVal : List Char → Option Nat := fun cs =>
    let ds := cs.takeWhile (fun ch => ch.isDigit)
    if ds.isEmpty then none
    else some (ds.foldl (fun a ch => a * 10 + (ch.toNat - 48)) 0)
  let cs := s.data.dropWhile (fun ch => ch.isWhitespace)
  match cs with
  | '-' :: rest => (digitsVal rest).map (fun n => -(n : Int))
  | '+' :: rest => (digitsVal rest).map (fun n => (n : Int))
  | _ => (digitsVal cs).map (fun n => (n : Int))

/-- The HMAC comparison tail of `verifyWebhookSignature`:
`crypto.timingSafeEqual` throws (`RangeError`) when the two buffers have
different byte lengths — caught by the surrounding `try` and reported as a
`verification_error` — and otherwise compares the bytes. -/
def verifyCore (hmac : String → String → String)
    (payload tStr v1 secret : String) : VerificationResult :=
  let expected := hmac secret (tStr ++ "." ++ payload)
  if v1.utf8ByteSize = expected.utf8ByteSize then
    if v1 = expected then ⟨true, "valid"⟩ else ⟨false, "signature_mismatch"⟩
  else
    ⟨false, "verification_error: Input buffers must have the same byte length"⟩

/-- `verifyWebhookSignature(payload, signatureHeader, secret, tolerance)`,
with the current wall clock `now` (seconds) made explicit and the HMAC
primitive passed as a parameter.  A non-numeric timestamp makes
`Math.abs(now - NaN) > tolerance` false, so the expiry check is skipped
(mirrored by the `none` branch). -/
def verifyWebhookSignature (hmac : String → String → String)
    (payload signatureHeader secret : String) (tolerance now : Int) :
    VerificationResult :=
  if signatureHeader = "" then ⟨false, "no_signature_header"⟩
  else
    let tStr := headerTStr signatureHeader
    let v1 := headerV1 signatureHeader
    if v1 = "" then ⟨false, "missing_v1_signature"⟩
    else
      match parseIntJS tStr with
      | some t =>
        let diff : Nat := (now - t).natAbs
        if (diff : Int) > tolerance then
          ⟨false, "timestamp_expired (diff=" ++ toString diff ++ "s, tolerance="
                    ++ toString tolerance ++ "s)"⟩
        else
          verifyCore hmac payload tStr v1 secret
      | none => verifyCore hmac payload tStr v1 secret

/-- `tryVerifyWithSecrets`: primary secret first, then — when the primary
fails and a truthy secondary is supplied — the secondary. -/
def tryVerifyWithSecrets (hmac : String → String → String)
    (payload signatureHeader primarySecret : String)
    (secondarySecret : Option String) (tolerance now : Int) :
    VerificationResult :=
  let primaryResult :=
    verifyWebhookSignature hmac payload signatureHeader primarySecret tolerance now
  if primaryResult.verified then ⟨true, "valid_primary"⟩
  else
    let failRes : VerificationResult :=
      ⟨false, "both_secrets_failed (primary: " ++ primaryResult.reason ++ ")"⟩
    match secondarySecret with
    | some s2 =>
      if s2 = "" then failRes
      else
        let secondaryResult :=
          verifyWebhookSignature hmac payload signatureHeader s2 tolerance now
        if secondaryResult.verified then ⟨true, "valid_secondary"⟩ else failRes
    | none => failRes

/-! ### Concrete fixtures used by witnesses and counterexamples -/

/-- The configuration of a freshly constructed step switched to FRUGAL
mode with a target URL. -/
def frugalCfg (u : String) : StepConfig :=
  { defaultStepConfig with stepType := .FRUGAL, url := some u }

/-- The configuration of a freshly constructed step with only a URL. -/
def urlOnlyCfg (u : String) : StepConfig :=
  { defaultStepConfig with url := some u }

/-- The configuration of a freshly constructed step switched to FRUGAL
mode, with no URL. -/
def noUrlFrugalCfg : StepConfig :=
  { defaultStepConfig with stepType := .FRUGAL }

/-- A FRUGAL step with only a URL configured. -/
def simpleFrugal (u : String) : Step :=
  .mk (frugalCfg u) [] none none

/-- Primary step for the fallback-ordering scenario of §8 of the spec:
URL `u0`, branches `[(B1, on_error [500]), (B2, always-eligible)]`. -/
def orderingStep (u0 u1 u2 : String) : Step :=
  .mk (frugalCfg u0)
    [(simpleFrugal u1, .onError [500]), (simpleFrugal u2, .empty)] none none

/-- An environment answering `u` with `o` and every other URL with `d`. -/
def pickEnv (u : String) (o d : HttpOutcome) : Env :=
  fun x => if x = u then o else d

/-- An environment answering every URL the same way. -/
def constEnv (o : HttpOutcome) : Env := fun _ => o

/-- A submitter that always throws. -/
def errSub : Submitter := fun _ => .err "unreachable"

/-- A submitter that always resolves with the given status string. -/
def okSub (st : String) : Submitter := fun _ => .ok ⟨st⟩

/-- A FRUGAL step with no URL but one always-eligible fallback branch. -/
def missingUrlFallbackStep : Step :=
  .mk noUrlFrugalCfg [(simpleFrugal "https://fb.example", .empty)] none none

/-- A step with `UNIQUE` strategy and an explicitly set empty-string key. -/
def emptyKeyUniqueStep : Step :=
  ((Step.new.url "https://x.example").idempotentStrategy .UNIQUE).idempotentKey ""

/-- A FRUGAL step with a URL and an `onSuccess` continuation. -/
def withSuccessStep : Step :=
  ((Step.new.type .FRUGAL).url "https://api.example").onSuccess
    (simpleFrugal "https://next.example")

/-- A digest model that tags the message with the secret (distinct secrets
give distinct digests). -/
def secretTagHmac : String → String → String := fun k m => k ++ "|" ++ m

/-- A digest model with a fixed 64-byte output. -/
def hex64Hmac : String → String → String :=
  fun _ _ => String.mk (List.replicate 64 'a')

/-- A step with `UNIQUE` strategy and no explicit key. -/
def uniqueNoKeyStep : Step :=
  (Step.new.url "https://x.example").idempotentStrategy .UNIQUE

/-- A step with an explicit, non-empty idempotent key. -/
def explicitKeyStep : Step :=
  (Step.new.url "https://x.example").idempotentKey "order-42"

/-- A step with one fallback branch and one `onSuccess` continuation. -/
def c6Step : Step :=
  .mk (urlOnlyCfg "https://a")
    [(simpleFrugal "https://b", .onError [500])]
    (some (simpleFrugal "https://c")) none

/-- The compiled payload of `c6Step`'s fallback branch. -/
def c6BranchPayload : JobPayload :=
  .mk (payloadFieldsOf (frugalCfg "https://b") "https://b" none)
    none none none

/-- The compiled payload of `c6Step`'s `onSuccess` continuation. -/
def c6ContPayload : JobPayload :=
  .mk (payloadFieldsOf (frugalCfg "https://c") "https://c" none)
    none none none

/-- The compiled payload of `c6Step`. -/
def c6Payload : JobPayload :=
  .mk (payloadFieldsOf (urlOnlyCfg "https://a") "https://a" none)
    (some (attachChain c6BranchPayload (.onError [500]) none))
    (some c6ContPayload) none

/-! ## Theorems -/

/-! ### Webhook verification lemmas -/

theorem verifyCore_eq_valid_iff (hmac : String → String → String)
    (payload tStr v1 secret : String) :
    verifyCore hmac payload tStr v1 secret = ⟨true, "valid"⟩
      ↔ v1 = hmac secret (tStr ++ "." ++ payload) := by
  unfold verifyCore
  by_cases hsz : v1.utf8ByteSize = (hmac secret (tStr ++ "." ++ payload)).utf8ByteSize
  · by_cases heq : v1 = hmac secret (tStr ++ "." ++ payload) <;>
      simp [hsz, heq]
  · have : v1 ≠ hmac secret (tStr ++ "." ++ payload) := by
      intro h
      exact hsz (by rw [h])
    simp [hsz, this]

theorem verifyCore_verified_iff (hmac : String → String → String)
    (payload tStr v1 secret : String) :
    (verifyCore hmac payload tStr v1 secret).verified = true
      ↔ v1 = hmac secret (tStr ++ "." ++ payload) := by
  unfold verifyCore
  by_cases hsz : v1.utf8ByteSize = (hmac secret (tStr ++ "." ++ payload)).utf8ByteSize
  · by_cases heq : v1 = hmac secret (tStr ++ "." ++ payload) <;>
      simp [hsz, heq]
  · have : v1 ≠ hmac secret (tStr ++ "." ++ payload) := by
      intro h
      exact hsz (by rw [h])
    simp [hsz, this]

/-- Under a non-empty header with a present `v1` component and a numeric,
in-tolerance timestamp, verification reduces to the HMAC comparison. -/
theorem verify_eq_core (hmac : String → String → String)
    (payload header secret : String) (tolerance now t : Int)
    (hhdr : header ≠ "") (hv1 : headerV1 header ≠ "")
    (ht : parseIntJS (headerTStr header) = some t)
    (hle : ((now - t).natAbs : Int) ≤ tolerance) :
    verifyWebhookSignature hmac payload header secret tolerance now
      = verifyCore hmac payload (headerTStr header) (headerV1 header) secret := by
  unfold verifyWebhookSignature
  simp [hhdr, hv1, ht]
  intro h
  rw [Int.abs_eq_natAbs] at h
  omega

/-- **C8.**  For every payload, signature header, secret, and tolerance:
verification fails with reason `missing_v1_signature` when the header's `v1`
component is absent; fails with a reason beginning `timestamp_expired`
whenever `|now − t|` exceeds the tolerance, regardless of whether the
signature would match under the secret; and succeeds with reason `valid`
exactly when the timestamp is within tolerance and the `v1` component equals
the HMAC-SHA256 digest of the string `"<t>.<payload>"` under the secret. -/
theorem verify_signature_spec (hmac : String → String → String)
    (payload header secret : String) (tolerance now : Int)
    (hhdr : header ≠ "") :
    (headerV1 header = "" →
      verifyWebhookSignature hmac payload header secret tolerance now
        = ⟨false, "missing_v1_signature"⟩)
    ∧ (∀ t : Int, parseIntJS (headerTStr header) = some t →
        headerV1 header ≠ "" → ((now - t).natAbs : Int) > tolerance →
        (verifyWebhookSignature hmac payload header secret tolerance now).verified = false
        ∧ ∃ rest, (verifyWebhookSignature hmac payload header secret tolerance now).reason
            = "timestamp_expired" ++ rest)
    ∧ (∀ t : Int, parseIntJS (headerTStr header) = some t →
        headerV1 header ≠ "" →
        (verifyWebhookSignature hmac payload header secret tolerance now = ⟨true, "valid"⟩
          ↔ ((now - t).natAbs : Int) ≤ tolerance
            ∧ headerV1 header = hmac secret (headerTStr header ++ "." ++ payload))) := by
  refine ⟨?_, ?_, ?_⟩
  · intro hv1
    unfold verifyWebhookSignature
    simp [hhdr, hv1]
  · intro t ht hv1 hgt
    have hgt' : tolerance < |now - t| := by
      rw [Int.abs_eq_natAbs]
      exact hgt
    have hres : verifyWebhookSignature hmac payload header secret tolerance now
        = ⟨false, "timestamp_expired (diff=" ++ toString (now - t).natAbs
            ++ "s, tolerance=" ++ toString tolerance ++ "s)"⟩ := by
      unfold verifyWebhookSignature
      simp [hhdr, hv1, ht, hgt']
    rw [hres]
    have hsplit : ("timestamp_expired (diff=" : String)
        = "timestamp_expired" ++ " (diff=" := by decide
    refine ⟨rfl, ⟨" (diff=" ++ toString (now - t).natAbs ++ "s, tolerance="
      ++ toString tolerance ++ "s)", ?_⟩⟩
    rw [hsplit]
    simp only [String.append_assoc]
  · intro t ht hv1
    by_cases hgt : ((now - t).natAbs : Int) > tolerance
    · constructor
      · intro h
        exfalso
        unfold verifyWebhookSignature at h
        have hgt' : tolerance < |now - t| := by
          rw [Int.abs_eq_natAbs]
          exact hgt
        simp [hhdr, hv1, ht, hgt'] at h
      · intro h
        exfalso
        exact absurd h.1 (not_le.mpr hgt)
    · rw [verify_eq_core hmac payload header secret tolerance now t hhdr hv1 ht
        (not_lt.mp hgt)]
      rw [verifyCore_eq_valid_iff]
      constructor
      · intro h
        exact ⟨not_lt.mp hgt, h⟩
      · intro h
        exact h.2

/-- Witness for `verify_signature_spec` at a concrete header, secret and
clock. -/
theorem verify_signature_spec_witness :
    verifyWebhookSignature secretTagHmac "pay" "t=100,v1=sec|100.pay" "sec" 300 100
      = ⟨true, "valid"⟩ :=
  ((verify_signature_spec secretTagHmac "pay" "t=100,v1=sec|100.pay" "sec" 300 100
      (by decide)).2.2 100 (by decide) (by decide)).mpr
    ⟨by decide, by decide⟩

/-- **C9.**  `tryVerifyWithSecrets` tries the primary secret first and the
secondary only when the primary fails: it returns `valid_primary` when the
primary secret verifies, `valid_secondary` when the primary fails but the
supplied (non-empty) secondary verifies, and `verified = false` when both
fail.  In particular a signature computed under a secret `S` verifies as
`valid_secondary` when the primary is a secret whose digest differs and `S`
is the secondary. -/
theorem try_verify_secret_rotation (hmac : String → String → String)
    (payload header primary : String) (secondary : Option String)
    (tolerance now : Int) :
    ((verifyWebhookSignature hmac payload header primary tolerance now).verified = true →
      tryVerifyWithSecrets hmac payload header primary secondary tolerance now
        = ⟨true, "valid_primary"⟩)
    ∧ (∀ s2, secondary = some s2 → s2 ≠ "" →
        (verifyWebhookSignature hmac payload header primary tolerance now).verified = false →
        (verifyWebhookSignature hmac payload header s2 tolerance now).verified = true →
        tryVerifyWithSecrets hmac payload header primary secondary tolerance now
          = ⟨true, "valid_secondary"⟩)
    ∧ ((verifyWebhookSignature hmac payload header primary tolerance now).verified = false →
        (∀ s2, secondary = some s2 → s2 ≠ "" →
          (verifyWebhookSignature hmac payload header s2 tolerance now).verified = false) →
        (tryVerifyWithSecrets hmac payload header primary secondary tolerance now).verified
          = false)
    ∧ (∀ (t : Int) (s2 : String), secondary = some s2 → s2 ≠ "" → header ≠ "" →
        headerV1 header ≠ "" → parseIntJS (headerTStr header) = some t →
        ((now - t).natAbs : Int) ≤ tolerance →
        headerV1 header = hmac s2 (headerTStr header ++ "." ++ payload) →
        headerV1 header ≠ hmac primary (headerTStr header ++ "." ++ payload) →
        tryVerifyWithSecrets hmac payload header primary secondary tolerance now
          = ⟨true, "valid_secondary"⟩) := by
  refine ⟨?_, ?_, ?_, ?_⟩
  · intro hp
    unfold tryVerifyWithSecrets
    simp [hp]
  · intro s2 hs2 hne hp hs
    unfold tryVerifyWithSecrets
    simp [hp, hs2, hne, hs]
  · intro hp hall
    unfold tryVerifyWithSecrets
    cases hsec : secondary with
    | none => simp [hp, hsec]
    | some s2 =>
      by_cases hne : s2 = ""
      · simp [hp, hsec, hne]
      · have := hall s2 hsec hne
        simp [hp, hsec, hne, this]
  · intro t s2 hs2 hne hhdr hv1 ht hle hsig hnot
    have hp : (verifyWebhookSignature hmac payload header primary tolerance now).verified
        = false := by
      rw [verify_eq_core hmac payload header primary tolerance now t hhdr hv1 ht hle]
      rw [Bool.eq_false_iff]
      intro h
      exact hnot ((verifyCore_verified_iff hmac payload _ _ primary).mp h)
    have hs : (verifyWebhookSignature hmac payload header s2 tolerance now).verified
        = true := by
      rw [verify_eq_core hmac payload header s2 tolerance now t hhdr hv1 ht hle]
      exact (verifyCore_verified_iff hmac payload _ _ s2).mpr hsig
    unfold tryVerifyWithSecrets
    simp [hp, hs2, hne, hs]

/-- Witness for `try_verify_secret_rotation`: a header signed under `"sec"`
verifies as `valid_secondary` when `"other"` is the primary and `"sec"` the
secondary. -/
theorem try_verify_secret_rotation_witness :
    tryVerifyWithSecrets secretTagHmac "pay" "t=100,v1=sec|100.pay" "other"
      (some "sec") 300 100 = ⟨true, "valid_secondary"⟩ :=
  (try_verify_secret_rotation secretTagHmac "pay" "t=100,v1=sec|100.pay" "other"
      (some "sec") 300 100).2.2.2 100 "sec" rfl (by decide) (by decide) (by decide)
      (by decide) (by decide) (by decide) (by decide)

theorem verifyCore_taxonomy (hmac : String → String → String)
    (payload tStr v1 secret : String) :
    (verifyCore hmac payload tStr v1 secret).reason = "signature_mismatch"
    ∨ (verifyCore hmac payload tStr v1 secret).reason = "valid"
    ∨ ∃ rest, (verifyCore hmac payload tStr v1 secret).reason
        = "verification_error" ++ rest := by
  unfold verifyCore
  by_cases hsz : v1.utf8ByteSize = (hmac secret (tStr ++ "." ++ payload)).utf8ByteSize
  · by_cases heq : v1 = hmac secret (tStr ++ "." ++ payload) <;> simp [hsz, heq]
  · refine Or.inr (Or.inr ⟨": Input buffers must have the same byte length", ?_⟩)
    simp [hsz]

/-- **C10.**  `verifyWebhookSignature` is total: on every input it returns a
`VerificationResult` whose reason belongs to the documented taxonomy (never
an uncaught exception); and when the header's `v1` component has a byte
length different from the 64-byte expected hex digest, the constant-time
comparison's internal exception is caught and the result is `verified =
false` with a reason beginning `verification_error`, not
`signature_mismatch`. -/
theorem verify_total_and_length_guard (hmac : String → String → String)
    (payload header secret : String) (tolerance now : Int) :
    ((verifyWebhookSignature hmac payload header secret tolerance now).reason
        = "no_signature_header"
      ∨ (verifyWebhookSignature hmac payload header secret tolerance now).reason
        = "missing_v1_signature"
      ∨ (∃ rest, (verifyWebhookSignature hmac payload header secret tolerance now).reason
          = "timestamp_expired" ++ rest)
      ∨ (verifyWebhookSignature hmac payload header secret tolerance now).reason
        = "signature_mismatch"
      ∨ (verifyWebhookSignature hmac payload header secret tolerance now).reason
        = "valid"
      ∨ (∃ rest, (verifyWebhookSignature hmac payload header secret tolerance now).reason
          = "verification_error" ++ rest))
    ∧ (∀ t : Int, header ≠ "" → headerV1 header ≠ "" →
        parseIntJS (headerTStr header) = some t →
        ((now - t).natAbs : Int) ≤ tolerance →
        (hmac secret (headerTStr header ++ "." ++ payload)).utf8ByteSize = 64 →
        (headerV1 header).utf8ByteSize ≠ 64 →
        verifyWebhookSignature hmac payload header secret tolerance now
          = ⟨false, "verification_error: Input buffers must have the same byte length"⟩
        ∧ (verifyWebhookSignature hmac payload header secret tolerance now).reason
            ≠ "signature_mismatch") := by
  constructor
  · by_cases hhdr : header = ""
    · unfold verifyWebhookSignature
      simp [hhdr]
    · by_cases hv1 : headerV1 header = ""
      · unfold verifyWebhookSignature
        simp [hhdr, hv1]
      · cases ht : parseIntJS (headerTStr header) with
        | none =>
          have hres : verifyWebhookSignature hmac payload header secret tolerance now
              = verifyCore hmac payload (headerTStr header) (headerV1 header) secret := by
            unfold verifyWebhookSignature
            simp [hhdr, hv1, ht]
          rw [hres]
          rcases verifyCore_taxonomy hmac payload (headerTStr header) (headerV1 header)
            secret with h | h | h
          · exact Or.inr (Or.inr (Or.inr (Or.inl h)))
          · exact Or.inr (Or.inr (Or.inr (Or.inr (Or.inl h))))
          · exact Or.inr (Or.inr (Or.inr (Or.inr (Or.inr h))))
        | some t =>
          by_cases hgt : ((now - t).natAbs : Int) > tolerance
          · have hgt' : tolerance < |now - t| := by
              rw [Int.abs_eq_natAbs]
              exact hgt
            have hres : verifyWebhookSignature hmac payload header secret tolerance now
                = ⟨false, "timestamp_expired (diff=" ++ toString (now - t).natAbs
                    ++ "s, tolerance=" ++ toString tolerance ++ "s)"⟩ := by
              unfold verifyWebhookSignature
              simp [hhdr, hv1, ht, hgt']
            rw [hres]
            refine Or.inr (Or.inr (Or.inl ⟨" (diff=" ++ toString (now - t).natAbs
              ++ "s, tolerance=" ++ toString tolerance ++ "s)", ?_⟩))
            have hsplit : ("timestamp_expired (diff=" : String)
                = "timestamp_expired" ++ " (diff=" := by decide
            rw [hsplit]
            simp only [String.append_assoc]
          · have hres : verifyWebhookSignature hmac payload header secret tolerance now
                = verifyCore hmac payload (headerTStr header) (headerV1 header) secret :=
              verify_eq_core hmac payload header secret tolerance now t hhdr hv1 ht
                (not_lt.mp hgt)
            rw [hres]
            rcases verifyCore_taxonomy hmac payload (headerTStr header) (headerV1 header)
              secret with h | h | h
            · exact Or.inr (Or.inr (Or.inr (Or.inl h)))
            · exact Or.inr (Or.inr (Or.inr (Or.inr (Or.inl h))))
            · exact Or.inr (Or.inr (Or.inr (Or.inr (Or.inr h))))
  · intro t hhdr hv1 ht hle hd64 hv64
    have hres : verifyWebhookSignature hmac payload header secret tolerance now
        = verifyCore hmac payload (headerTStr header) (headerV1 header) secret :=
      verify_eq_core hmac payload header secret tolerance now t hhdr hv1 ht hle
    have hsz : (headerV1 header).utf8ByteSize
        ≠ (hmac secret (headerTStr header ++ "." ++ payload)).utf8ByteSize := by
      rw [hd64]
      exact hv64
    have hcore : verifyCore hmac payload (headerTStr header) (headerV1 header) secret
        = ⟨false, "verification_error: Input buffers must have the same byte length"⟩ := by
      unfold verifyCore
      simp [hsz]
    rw [hres, hcore]
    exact ⟨rfl, by decide⟩

/-- Witness for `verify_total_and_length_guard`: a 3-byte `v1` against a
64-byte digest yields a `verification_error`, not `signature_mismatch`. -/
theorem verify_total_and_length_guard_witness :
    verifyWebhookSignature hex64Hmac "pay" "t=100,v1=abc" "sec" 300 100
      = ⟨false, "verification_error: Input buffers must have the same byte length"⟩ :=
  ((verify_total_and_length_guard hex64Hmac "pay" "t=100,v1=abc" "sec" 300 100).2
    100 (by decide) (by decide) (by decide) (by decide) (by decide) (by decide)).1

/-! ### Execution engine: one-step unfolding lemmas -/

theorem exec_frugal_2xx (env : Env) (sub : Submitter) (cfg : StepConfig)
    (fbs : List (Step × Trigger)) (os ofl : Option Step)
    (u body : String) (st c : Nat)
    (hty : cfg.stepType = .FRUGAL) (hurl : cfg.url = some u)
    (henv : env u = .resp st body) (h2 : 200 ≤ st) (h3 : st < 300) :
    exec env sub (.mk cfg fbs os ofl) true c
      = (.ok (.localDone
            { status := "success", executed_locally := true
              status_code := st, response := some body, error := none }),
         .localHttp u :: spawnEvents os, c) := by
  simp [exec, hty, hurl, henv, h2, h3]

theorem exec_frugal_nonforwardable (env : Env) (sub : Submitter) (cfg : StepConfig)
    (fbs : List (Step × Trigger)) (os ofl : Option Step)
    (u body : String) (st c : Nat)
    (hty : cfg.stepType = .FRUGAL) (hurl : cfg.url = some u)
    (henv : env u = .resp st body) (hno : ¬ (200 ≤ st ∧ st < 300))
    (hnf : st ∉ cfg.fallbackOnError) :
    exec env sub (.mk cfg fbs os ofl) true c
      = (.ok (.localDone
            { status := "failed", executed_locally := true
              status_code := st, response := none
              error := "Request failed: " ++ toString st }),
         [.localHttp u], c) := by
  simp [exec, hty, hurl, henv, hno, hnf]

theorem exec_frugal_forwardable (env : Env) (sub : Submitter) (cfg : StepConfig)
    (fbs : List (Step × Trigger)) (os ofl : Option Step)
    (u body : String) (st c : Nat)
    (hty : cfg.stepType = .FRUGAL) (hurl : cfg.url = some u)
    (henv : env u = .resp st body) (hno : ¬ (200 ≤ st ∧ st < 300))
    (hfw : st ∈ cfg.fallbackOnError) :
    exec env sub (.mk cfg fbs os ofl) true c
      = (match tryFallbacks env sub fbs (some st) c with
         | (some v, tr, c1) => (.ok v, .localHttp u :: tr, c1)
         | (none, tr, c1) =>
            forwardResult sub (.mk cfg fbs os ofl) (.localHttp u :: tr) c1) := by
  rcases htf : tryFallbacks env sub fbs (some st) c with ⟨r, tr, c1⟩
  cases r <;> simp [exec, hty, hurl, henv, hno, hfw, htf]

theorem exec_frugal_netErr (env : Env) (sub : Submitter) (cfg : StepConfig)
    (fbs : List (Step × Trigger)) (os ofl : Option Step)
    (u msg : String) (c : Nat)
    (hty : cfg.stepType = .FRUGAL) (hurl : cfg.url = some u)
    (henv : env u = .netErr msg) :
    exec env sub (.mk cfg fbs os ofl) true c
      = (match tryFallbacks env sub fbs none c with
         | (some v, tr, c1) => (.ok v, .localHttp u :: tr, c1)
         | (none, tr, c1) =>
            forwardResult sub (.mk cfg fbs os ofl) (.localHttp u :: tr) c1) := by
  rcases htf : tryFallbacks env sub fbs none c with ⟨r, tr, c1⟩
  cases r <;> simp [exec, hty, hurl, henv, htf]

theorem exec_frugal_nourl (env : Env) (sub : Submitter) (cfg : StepConfig)
    (fbs : List (Step × Trigger)) (os ofl : Option Step) (c : Nat)
    (hty : cfg.stepType = .FRUGAL) (hurl : cfg.url = none) :
    exec env sub (.mk cfg fbs os ofl) true c
      = (match tryFallbacks env sub fbs none c with
         | (some v, tr, c1) => (.ok v, tr, c1)
         | (none, tr, c1) => forwardResult sub (.mk cfg fbs os ofl) tr c1) := by
  rcases htf : tryFallbacks env sub fbs none c with ⟨r, tr, c1⟩
  cases r <;> simp [exec, hty, hurl, htf]

theorem exec_performance (env : Env) (sub : Submitter) (cfg : StepConfig)
    (fbs : List (Step × Trigger)) (os ofl : Option Step) (c : Nat)
    (hty : cfg.stepType = .PERFORMANCE) :
    exec env sub (.mk cfg fbs os ofl) true c
      = (match buildJobPayload (.mk cfg fbs os ofl) c with
         | .error m => (.thrown m, [], c)
         | .ok (p, c1) =>
            match sub p with
            | .ok r => (.ok (.remoteDone r), [.submit p], c1)
            | .err m => (.thrown m, [.submit p], c1)) := by
  cases hb : buildJobPayload (.mk cfg fbs os ofl) c with
  | error m => simp [exec, hty, hb]
  | ok pc =>
    rcases pc with ⟨p, c1⟩
    cases hs : sub p <;> simp [exec, hty, hb, hs]

theorem tryFallbacks_skip_nomatch (env : Env) (sub : Submitter)
    (st : Step) (trg : Trigger) (rest : List (Step × Trigger))
    (ec : Option Nat) (c : Nat) (hskip : shouldTrigger trg ec = false) :
    tryFallbacks env sub ((st, trg) :: rest) ec c
      = tryFallbacks env sub rest ec c := by
  simp [tryFallbacks, hskip]

theorem tryFallbacks_skip_performance (env : Env) (sub : Submitter)
    (st : Step) (trg : Trigger) (rest : List (Step × Trigger))
    (ec : Option Nat) (c : Nat) (htrig : shouldTrigger trg ec = true)
    (hperf : st.cfg.stepType = .PERFORMANCE) :
    tryFallbacks env sub ((st, trg) :: rest) ec c
      = tryFallbacks env sub rest ec c := by
  simp [tryFallbacks, htrig, hperf]

theorem tryFallbacks_first_success (env : Env) (sub : Submitter)
    (st : Step) (trg : Trigger) (rest : List (Step × Trigger))
    (ec : Option Nat) (c : Nat) (v : ExecValue) (tr : List NetEvent) (c1 : Nat)
    (htrig : shouldTrigger trg ec = true) (hfr : st.cfg.stepType = .FRUGAL)
    (hexec : exec env sub st true c = (.ok v, tr, c1))
    (hsucc : v.statusStr = "success") :
    tryFallbacks env sub ((st, trg) :: rest) ec c = (some v, tr, c1) := by
  simp [tryFallbacks, htrig, hfr, hexec, hsucc]

/-! ### Execution engine: the claims -/

/-- **C1.**  For every Step in FRUGAL mode whose local HTTP attempt returns
a 2xx status, `execute()` returns a local-execution success record
(`status: 'success'`, `executed_locally: true`, the response's status code
and body); no remote submission occurs; and a configured `onSuccess` step
is only launched detached — the returned value is fully determined without
joining its outcome. -/
theorem frugal_local_2xx_success (env : Env) (sub : Submitter) (s : Step)
    (c : Nat) (u body : String) (st : Nat)
    (hty : s.cfg.stepType = .FRUGAL) (hurl : s.cfg.url = some u)
    (henv : env u = .resp st body) (h2 : 200 ≤ st) (h3 : st < 300) :
    exec env sub s true c
      = (.ok (.localDone
            { status := "success", executed_locally := true
              status_code := st, response := some body, error := none }),
         .localHttp u :: spawnEvents s.onSuccessStep, c)
    ∧ ∀ p, NetEvent.submit p ∉ (exec env sub s true c).2.1 := by
  obtain ⟨cfg, fbs, os, ofl⟩ := s
  simp only [Step.cfg] at hty hurl
  simp only [Step.onSuccessStep]
  have hmain := exec_frugal_2xx env sub cfg fbs os ofl u body st c hty hurl henv h2 h3
  refine ⟨hmain, ?_⟩
  intro p
  rw [hmain]
  cases os <;> simp [spawnEvents]

/-- Witness for `frugal_local_2xx_success` at a concrete step with an
`onSuccess` continuation. -/
theorem frugal_local_2xx_success_witness :
    exec (constEnv (.resp 204 "done")) errSub withSuccessStep true 0
      = (.ok (.localDone
            { status := "success", executed_locally := true
              status_code := 204, response := some "done", error := none }),
         [.localHttp "https://api.example",
          .spawnDetached (simpleFrugal "https://next.example")], 0) :=
  (frugal_local_2xx_success (constEnv (.resp 204 "done")) errSub withSuccessStep 0
    "https://api.example" "done" 204 rfl rfl rfl (by decide) (by decide)).1

/-- **C2.**  For every Step in FRUGAL mode whose local HTTP attempt returns
a non-2xx status outside the forwardable set, `execute()` attempts no
fallback branch and performs no remote submission (the trace is the single
local attempt) and resolves — rather than throws — with a structured
failure record carrying the status code and an error message. -/
theorem frugal_nonforwardable_terminal (env : Env) (sub : Submitter) (s : Step)
    (c : Nat) (u body : String) (st : Nat)
    (hty : s.cfg.stepType = .FRUGAL) (hurl : s.cfg.url = some u)
    (henv : env u = .resp st body)
    (hno : ¬ (200 ≤ st ∧ st < 300))
    (hnf : st ∉ s.cfg.fallbackOnError) :
    exec env sub s true c
      = (.ok (.localDone
            { status := "failed", executed_locally := true
              status_code := st, response := none
              error := "Request failed: " ++ toString st }),
         [.localHttp u], c) := by
  obtain ⟨cfg, fbs, os, ofl⟩ := s
  simp only [Step.cfg] at hty hurl hnf
  exact exec_frugal_nonforwardable env sub cfg fbs os ofl u body st c hty hurl henv
    hno hnf

/-- Witness for `frugal_nonforwardable_terminal`: a 404 (not in the default
forwardable set) is returned as a structured local failure. -/
theorem frugal_nonforwardable_terminal_witness :
    exec (constEnv (.resp 404 "missing")) errSub
      (simpleFrugal "https://api.example") true 0
      = (.ok (.localDone
            { status := "failed", executed_locally := true
              status_code := 404, response := none
              error := "Request failed: " ++ toString 404 }),
         [.localHttp "https://api.example"], 0) :=
  frugal_nonforwardable_terminal (constEnv (.resp 404 "missing")) errSub
    (simpleFrugal "https://api.example") 0 "https://api.example" "missing" 404
    rfl rfl rfl (by decide) (by decide)

/-- **C4.**  For every FRUGAL Step whose local HTTP attempt fails at the
network level (connection error or timeout), `execute()` treats the failure
like a forwardable one: it attempts the fallback branches locally (with a
null error code, under the same trigger-matching rules) and forwards the
compiled payload to remote submission only when no attempted branch
succeeds. -/
theorem frugal_network_error_fallback_then_forward (env : Env) (sub : Submitter)
    (s : Step) (c : Nat) (u msg : String)
    (hty : s.cfg.stepType = .FRUGAL) (hurl : s.cfg.url = some u)
    (henv : env u = .netErr msg) :
    exec env sub s true c
      = (match tryFallbacks env sub s.fallbackSteps none c with
         | (some v, tr, c1) => (.ok v, .localHttp u :: tr, c1)
         | (none, tr, c1) => forwardResult sub s (.localHttp u :: tr) c1) := by
  obtain ⟨cfg, fbs, os, ofl⟩ := s
  simp only [Step.cfg] at hty hurl
  simp only [Step.fallbackSteps]
  exact exec_frugal_netErr env sub cfg fbs os ofl u msg c hty hurl henv

/-- Witness for `frugal_network_error_fallback_then_forward`: with no
branches, a connection failure forwards the compiled payload. -/
theorem frugal_network_error_witness :
    exec (constEnv (.netErr "ECONNREFUSED")) (okSub "queued")
      (simpleFrugal "https://api.example") true 0
      = (match tryFallbacks (constEnv (.netErr "ECONNREFUSED")) (okSub "queued")
            (simpleFrugal "https://api.example").fallbackSteps none 0 with
         | (some v, tr, c1) => (.ok v, .localHttp "https://api.example" :: tr, c1)
         | (none, tr, c1) => forwardResult (okSub "queued")
            (simpleFrugal "https://api.example")
            (.localHttp "https://api.example" :: tr) c1) :=
  frugal_network_error_fallback_then_forward (constEnv (.netErr "ECONNREFUSED"))
    (okSub "queued") (simpleFrugal "https://api.example") 0 "https://api.example"
    "ECONNREFUSED" rfl rfl rfl

/-- **C3.**  Local fallback attempts are first-match-wins in declared
order: a branch whose trigger does not match is skipped, a PERFORMANCE
branch is skipped, and once an attempted branch returns success its result
is returned immediately without touching later siblings.  In particular,
with branches `[B1 (on-error 500), B2 (always-eligible)]` and a primary
failure with status 500, B1 is attempted before B2 and its local success is
returned with B2 never attempted. -/
theorem fallback_first_match_wins (env : Env) (sub : Submitter) :
    (∀ st trg rest ec c, shouldTrigger trg ec = false →
      tryFallbacks env sub ((st, trg) :: rest) ec c = tryFallbacks env sub rest ec c)
    ∧ (∀ st trg rest ec c, shouldTrigger trg ec = true →
        st.cfg.stepType = .PERFORMANCE →
        tryFallbacks env sub ((st, trg) :: rest) ec c = tryFallbacks env sub rest ec c)
    ∧ (∀ st trg rest ec c v tr c1, shouldTrigger trg ec = true →
        st.cfg.stepType = .FRUGAL →
        exec env sub st true c = (.ok v, tr, c1) → v.statusStr = "success" →
        tryFallbacks env sub ((st, trg) :: rest) ec c = (some v, tr, c1))
    ∧ (∀ u0 u1 u2 b0 b1 c, env u0 = .resp 500 b0 → env u1 = .resp 200 b1 →
        exec env sub (orderingStep u0 u1 u2) true c
          = (.ok (.localDone
              { status := "success", executed_locally := true
                status_code := 200, response := some b1, error := none }),
             [.localHttp u0, .localHttp u1], c)) := by
  refine ⟨fun st trg rest ec c h => tryFallbacks_skip_nomatch env sub st trg rest ec c h,
    fun st trg rest ec c h1 h2 => tryFallbacks_skip_performance env sub st trg rest ec c h1 h2,
    fun st trg rest ec c v tr c1 h1 h2 h3 h4 =>
      tryFallbacks_first_success env sub st trg rest ec c v tr c1 h1 h2 h3 h4,
    ?_⟩
  intro u0 u1 u2 b0 b1 c henv0 henv1
  have hb1 : exec env sub (simpleFrugal u1) true c
      = (.ok (.localDone
          { status := "success", executed_locally := true
            status_code := 200, response := some b1, error := none }),
         [.localHttp u1], c) := by
    have := exec_frugal_2xx env sub (frugalCfg u1) [] none none
      u1 b1 200 c rfl rfl henv1 (by decide) (by decide)
    simpa [simpleFrugal, spawnEvents] using this
  have hsucc : (ExecValue.localDone
      { status := "success", executed_locally := true
        status_code := 200, response := some b1, error := none }).statusStr
      = "success" := rfl
  have htf : tryFallbacks env sub
      [(simpleFrugal u1, .onError [500]), (simpleFrugal u2, .empty)] (some 500) c
      = (some (.localDone
          { status := "success", executed_locally := true
            status_code := 200, response := some b1, error := none }),
         [.localHttp u1], c) :=
    tryFallbacks_first_success env sub (simpleFrugal u1) (.onError [500])
      [(simpleFrugal u2, .empty)] (some 500) c _ _ _ (by decide) rfl hb1 hsucc
  have hout := exec_frugal_forwardable env sub (frugalCfg u0)
    [(simpleFrugal u1, .onError [500]), (simpleFrugal u2, .empty)] none none
    u0 b0 500 c rfl rfl henv0 (by decide)
    (show (500 : Nat) ∈ [429, 500, 502, 503, 504] by decide)
  rw [show orderingStep u0 u1 u2
      = .mk (frugalCfg u0)
          [(simpleFrugal u1, .onError [500]), (simpleFrugal u2, .empty)]
          none none from rfl]
  rw [hout, htf]

/-- Witness for `fallback_first_match_wins` at a concrete environment
distinguishing the three URLs. -/
theorem fallback_first_match_wins_witness :
    exec (pickEnv "https://p" (.resp 500 "boom") (.resp 200 "ok")) errSub
      (orderingStep "https://p" "https://b1" "https://b2") true 0
      = (.ok (.localDone
          { status := "success", executed_locally := true
            status_code := 200, response := some "ok", error := none }),
         [.localHttp "https://p", .localHttp "https://b1"], 0) :=
  (fallback_first_match_wins (pickEnv "https://p" (.resp 500 "boom") (.resp 200 "ok"))
    errSub).2.2.2 "https://p" "https://b1" "https://b2" "boom" "ok" 0
    (by simp [pickEnv]) (by simp [pickEnv])

/-- **C7 (amended).**  A missing submission client always fails before any
activity.  A missing target URL fails with the configuration error
`"URL is required"` before any network activity in PERFORMANCE mode, and in
FRUGAL mode when the Step has no fallback branches; in FRUGAL mode the
missing-URL throw is caught as a network-level failure, so configured
fallback branches are attempted before the configuration error surfaces
from payload compilation (see the counterexample for the original claim). -/
theorem config_error_before_io (env : Env) (sub : Submitter) (s : Step) (c : Nat) :
    (exec env sub s false c
      = (.thrown "Client is required. Pass client to execute() or Step(client)", [], c))
    ∧ (s.cfg.stepType = .PERFORMANCE → s.cfg.url = none →
        exec env sub s true c = (.thrown "URL is required", [], c))
    ∧ (s.cfg.stepType = .FRUGAL → s.cfg.url = none → s.fallbackSteps = [] →
        exec env sub s true c = (.thrown "URL is required", [], c)) := by
  obtain ⟨cfg, fbs, os, ofl⟩ := s
  refine ⟨by simp [exec], ?_, ?_⟩
  · intro hty hurl
    simp only [Step.cfg] at hty hurl
    rw [exec_performance env sub cfg fbs os ofl c hty]
    simp [buildJobPayload, hurl]
  · intro hty hurl hfbs
    simp only [Step.cfg] at hty hurl
    simp only [Step.fallbackSteps] at hfbs
    subst hfbs
    rw [exec_frugal_nourl env sub cfg [] os ofl c hty hurl]
    simp [tryFallbacks, forwardResult, buildJobPayload, hurl]

/-- Witness for `config_error_before_io`: a FRUGAL step with no URL and no
branches rejects with the configuration error and an empty trace. -/
theorem config_error_before_io_witness :
    exec (constEnv (.resp 200 "ok")) errSub (Step.new.type .FRUGAL) true 0
      = (.thrown "URL is required", [], 0) :=
  (config_error_before_io (constEnv (.resp 200 "ok")) errSub
    (Step.new.type .FRUGAL) 0).2.2 rfl rfl rfl

/-- **C7 counterexample.**  A FRUGAL step lacking a URL but carrying an
always-eligible fallback branch does *not* fail with a configuration error
before network activity: the missing-URL throw is caught as a network
error, the branch is attempted (a local HTTP request occurs in the trace),
and its success becomes the result. -/
theorem missing_url_fallback_attempted_counterexample :
    exec (constEnv (.resp 200 "ok")) errSub missingUrlFallbackStep true 0
      = (.ok (.localDone
          { status := "success", executed_locally := true
            status_code := 200, response := some "ok", error := none }),
         [.localHttp "https://fb.example"], 0)
    ∧ (exec (constEnv (.resp 200 "ok")) errSub missingUrlFallbackStep true 0).2.1
        ≠ [] := by
  have hb : exec (constEnv (.resp 200 "ok")) errSub
      (simpleFrugal "https://fb.example") true 0
      = (.ok (.localDone
          { status := "success", executed_locally := true
            status_code := 200, response := some "ok", error := none }),
         [.localHttp "https://fb.example"], 0) := by
    have := exec_frugal_2xx (constEnv (.resp 200 "ok")) errSub
      (frugalCfg "https://fb.example")
      [] none none "https://fb.example" "ok" 200 0 rfl rfl rfl (by decide) (by decide)
    simpa [simpleFrugal, spawnEvents] using this
  have htf : tryFallbacks (constEnv (.resp 200 "ok")) errSub
      [(simpleFrugal "https://fb.example", .empty)] none 0
      = (some (.localDone
          { status := "success", executed_locally := true
            status_code := 200, response := some "ok", error := none }),
         [.localHttp "https://fb.example"], 0) :=
    tryFallbacks_first_success (constEnv (.resp 200 "ok")) errSub
      (simpleFrugal "https://fb.example") .empty [] none 0 _ _ _ rfl rfl hb rfl
  have hout := exec_frugal_nourl (constEnv (.resp 200 "ok")) errSub
    noUrlFrugalCfg
    [(simpleFrugal "https://fb.example", .empty)] none none 0 rfl rfl
  have hmain : exec (constEnv (.resp 200 "ok")) errSub missingUrlFallbackStep true 0
      = (.ok (.localDone
          { status := "success", executed_locally := true
            status_code := 200, response := some "ok", error := none }),
         [.localHttp "https://fb.example"], 0) := by
    rw [show missingUrlFallbackStep
        = .mk noUrlFrugalCfg
            [(simpleFrugal "https://fb.example", .empty)] none none from rfl]
    rw [hout, htf]
  exact ⟨hmain, by rw [hmain]; simp⟩

/-! ### Payload compiler lemmas -/

theorem resolveKey_counter_le (cfg : StepConfig) (c : Nat) :
    c ≤ (resolveKey cfg c).2 := by
  unfold resolveKey resolveKeyStrategy
  rcases cfg.idempotentKey with _ | k
  · rcases cfg.idempotentStrategy <;> simp
  · by_cases hk : k = ""
    · rcases cfg.idempotentStrategy <;> simp [hk]
    · simp [hk]

theorem resolveKey_absent_hash (cfg : StepConfig) (c : Nat)
    (hstrat : cfg.idempotentStrategy = .HASH)
    (hkey : cfg.idempotentKey = none ∨ cfg.idempotentKey = some "") :
    resolveKey cfg c = (none, c) := by
  unfold resolveKey resolveKeyStrategy
  rcases hkey with h | h <;> simp [h, hstrat]

theorem resolveKey_absent_unique (cfg : StepConfig) (c : Nat)
    (hstrat : cfg.idempotentStrategy = .UNIQUE)
    (hkey : cfg.idempotentKey = none ∨ cfg.idempotentKey = some "") :
    resolveKey cfg c = (some (uuidv4 c), c + 1) := by
  unfold resolveKey resolveKeyStrategy
  rcases hkey with h | h <;> simp [h, hstrat]

theorem resolveKey_explicit (cfg : StepConfig) (c : Nat) (k : String)
    (hkey : cfg.idempotentKey = some k) (hne : k ≠ "") :
    resolveKey cfg c = (some k, c) := by
  unfold resolveKey
  simp [hkey, hne]

theorem uuidv4_injective {a b : Nat} (h : uuidv4 a = uuidv4 b) : a = b := by
  have hl := congrArg String.length h
  simpa [uuidv4, String.length] using hl

/-- Inversion of a successful compilation: the payload's shape, components
and the order in which the mint counter is threaded. -/
theorem buildJobPayload_ok_elim (cfg : StepConfig) (fbs : List (Step × Trigger))
    (os ofl : Option Step) (c : Nat) (p : JobPayload) (c' : Nat)
    (h : buildJobPayload (.mk cfg fbs os ofl) c = .ok (p, c')) :
    ∃ u fj c2 osp c3 ofp,
      cfg.url = some u
      ∧ buildChain fbs (resolveKey cfg c).2 = .ok (fj, c2)
      ∧ buildOpt os c2 = .ok (osp, c3)
      ∧ buildOpt ofl c3 = .ok (ofp, c')
      ∧ p = JobPayload.mk (payloadFieldsOf cfg u (resolveKey cfg c).1) fj osp ofp := by
  rw [buildJobPayload] at h
  rcases hurl : cfg.url with _ | u
  · simp only [hurl] at h
    exact Except.noConfusion h
  · simp only [hurl] at h
    rcases hk : resolveKey cfg c with ⟨key, c1⟩
    simp only [hk] at h
    rcases hch : buildChain fbs c1 with e | ⟨fj, c2⟩
    · simp only [hch] at h
      exact Except.noConfusion h
    · simp only [hch] at h
      rcases hos : buildOpt os c2 with e | ⟨osp, c3⟩
      · simp only [hos] at h
        exact Except.noConfusion h
      · simp only [hos] at h
        rcases hof : buildOpt ofl c3 with e | ⟨ofp, c4⟩
        · simp only [hof] at h
          exact Except.noConfusion h
        · simp only [hof, Except.ok.injEq, Prod.mk.injEq] at h
          exact ⟨u, fj, c2, osp, c3, ofp, rfl, rfl, hos, h.2 ▸ hof, h.1.symm⟩


/-- The mint counter never decreases through compilation (bundled strong
induction over the sizes of the three mutually recursive compilers). -/
theorem build_counter_mono : ∀ n : Nat,
    (∀ s : Step, sizeOf s ≤ n → ∀ c p c', buildJobPayload s c = .ok (p, c') → c ≤ c')
    ∧ (∀ o : Option Step, sizeOf o ≤ n →
        ∀ c r c', buildOpt o c = .ok (r, c') → c ≤ c')
    ∧ (∀ l : List (Step × Trigger), sizeOf l ≤ n →
        ∀ c r c', buildChain l c = .ok (r, c') → c ≤ c') := by
  intro n
  induction n using Nat.strong_induction_on with
  | _ n ih =>
    refine ⟨?_, ?_, ?_⟩
    · intro s hs c p c' h
      obtain ⟨cfg, fbs, os, ofl⟩ := s
      obtain ⟨u, fj, c2, osp, c3, ofp, _, hch, hos, hof, _⟩ :=
        buildJobPayload_ok_elim cfg fbs os ofl c p c' h
      have hfbs : sizeOf fbs < n := by
        have : sizeOf fbs < sizeOf (Step.mk cfg fbs os ofl) := by
          simp
          try omega
        omega
      have hosz : sizeOf os < n := by
        have : sizeOf os < sizeOf (Step.mk cfg fbs os ofl) := by
          simp
          try omega
        omega
      have hofz : sizeOf ofl < n := by
        have : sizeOf ofl < sizeOf (Step.mk cfg fbs os ofl) := by
          simp
          try omega
        omega
      have h1 : c ≤ (resolveKey cfg c).2 := resolveKey_counter_le cfg c
      have h2 : (resolveKey cfg c).2 ≤ c2 :=
        ((ih (sizeOf fbs) hfbs).2.2 fbs le_rfl _ fj c2 hch)
      have h3 : c2 ≤ c3 := ((ih (sizeOf os) hosz).2.1 os le_rfl c2 osp c3 hos)
      have h4 : c3 ≤ c' := ((ih (sizeOf ofl) hofz).2.1 ofl le_rfl c3 ofp c' hof)
      omega
    · intro o ho c r c' h
      cases o with
      | none =>
        simp only [buildOpt, Except.ok.injEq, Prod.mk.injEq] at h
        omega
      | some s =>
        rw [buildOpt] at h
        rcases hb : buildJobPayload s c with e | ⟨p, cp⟩
        · simp only [hb] at h
          exact Except.noConfusion h
        · simp only [hb, Except.ok.injEq, Prod.mk.injEq] at h
          have hsz : sizeOf s < n := by
            have : sizeOf s < sizeOf (some s) := by
              simp
            omega
          have := (ih (sizeOf s) hsz).1 s le_rfl c p cp hb
          omega
    · intro l hl c r c' h
      cases l with
      | nil =>
        simp only [buildChain, Except.ok.injEq, Prod.mk.injEq] at h
        omega
      | cons hd rest =>
        rcases hd with ⟨st, trg⟩
        rw [buildChain] at h
        rcases hch : buildChain rest c with e | ⟨tail, c1⟩
        · simp only [hch] at h
          exact Except.noConfusion h
        · simp only [hch] at h
          rcases hb : buildJobPayload st c1 with e | ⟨p, c2⟩
          · simp only [hb] at h
            exact Except.noConfusion h
          · simp only [hb, Except.ok.injEq, Prod.mk.injEq] at h
            have hrsz : sizeOf rest < n := by
              have : sizeOf rest < sizeOf ((st, trg) :: rest) := by
                simp
                try omega
              omega
            have hssz : sizeOf st < n := by
              have : sizeOf st < sizeOf ((st, trg) :: rest) := by
                simp
                try omega
              omega
            have m1 := (ih (sizeOf rest) hrsz).2.2 rest le_rfl c tail c1 hch
            have m2 := (ih (sizeOf st) hssz).1 st le_rfl c1 p c2 hb
            omega

/-- Counter monotonicity, specialised to `buildJobPayload`. -/
theorem buildJobPayload_counter_le (s : Step) (c : Nat) (p : JobPayload) (c' : Nat)
    (h : buildJobPayload s c = .ok (p, c')) : c ≤ c' :=
  (build_counter_mono (sizeOf s)).1 s le_rfl c p c' h

/-- Counter monotonicity, specialised to `buildChain`. -/
theorem buildChain_counter_le (l : List (Step × Trigger)) (c : Nat)
    (r : Option JobPayload) (c' : Nat) (h : buildChain l c = .ok (r, c')) : c ≤ c' :=
  (build_counter_mono (sizeOf l)).2.2 l le_rfl c r c' h

/-- Counter monotonicity, specialised to `buildOpt`. -/
theorem buildOpt_counter_le (o : Option Step) (c : Nat)
    (r : Option JobPayload) (c' : Nat) (h : buildOpt o c = .ok (r, c')) : c ≤ c' :=
  (build_counter_mono (sizeOf o)).2.1 o le_rfl c r c' h


theorem buildJobPayload_key (cfg : StepConfig) (fbs : List (Step × Trigger))
    (os ofl : Option Step) (c : Nat) (p : JobPayload) (c' : Nat)
    (h : buildJobPayload (.mk cfg fbs os ofl) c = .ok (p, c')) :
    p.fields.idempotentKey = (resolveKey cfg c).1 := by
  obtain ⟨u, fj, c2, osp, c3, ofp, hu, hch, hos, hof, hp⟩ :=
    buildJobPayload_ok_elim cfg fbs os ofl c p c' h
  rw [hp]
  rfl

theorem buildOpt_none (c : Nat) : buildOpt none c = .ok (none, c) := by
  rw [buildOpt]

theorem buildOpt_some (s : Step) (c : Nat) (p : JobPayload) (c' : Nat)
    (h : buildJobPayload s c = .ok (p, c')) :
    buildOpt (some s) c = .ok (some p, c') := by
  rw [buildOpt]
  simp only [h]

theorem buildChain_nil (c : Nat) : buildChain [] c = .ok (none, c) := by
  rw [buildChain]

theorem buildChain_cons (st : Step) (trg : Trigger) (rest : List (Step × Trigger))
    (c : Nat) (tail : Option JobPayload) (c1 : Nat) (p : JobPayload) (c2 : Nat)
    (hch : buildChain rest c = .ok (tail, c1))
    (hb : buildJobPayload st c1 = .ok (p, c2)) :
    buildChain ((st, trg) :: rest) c = .ok (some (attachChain p trg tail), c2) := by
  rw [buildChain]
  simp only [hch, hb]

/-- Forward construction of a successful compilation from its components. -/
theorem buildJobPayload_ok_intro (cfg : StepConfig) (fbs : List (Step × Trigger))
    (os ofl : Option Step) (c : Nat) (u : String) (key : Option String)
    (c1 : Nat) (fj : Option JobPayload) (c2 : Nat) (osp : Option JobPayload)
    (c3 : Nat) (ofp : Option JobPayload) (c4 : Nat)
    (hu : cfg.url = some u) (hk : resolveKey cfg c = (key, c1))
    (hch : buildChain fbs c1 = .ok (fj, c2))
    (hos : buildOpt os c2 = .ok (osp, c3))
    (hof : buildOpt ofl c3 = .ok (ofp, c4)) :
    buildJobPayload (.mk cfg fbs os ofl) c
      = .ok (.mk (payloadFieldsOf cfg u key) fj osp ofp, c4) := by
  rw [buildJobPayload]
  simp only [hu, hk, hch, hos, hof]

/-- A compilation of a `UNIQUE`-strategy step without a truthy explicit key
strictly advances the mint counter. -/
theorem buildJobPayload_unique_advances (cfg : StepConfig)
    (fbs : List (Step × Trigger)) (os ofl : Option Step) (c : Nat)
    (p : JobPayload) (c' : Nat)
    (hstrat : cfg.idempotentStrategy = .UNIQUE)
    (habs : cfg.idempotentKey = none ∨ cfg.idempotentKey = some "")
    (h : buildJobPayload (.mk cfg fbs os ofl) c = .ok (p, c')) :
    c + 1 ≤ c' := by
  obtain ⟨u, fj, c2, osp, c3, ofp, hu, hch, hos, hof, hp⟩ :=
    buildJobPayload_ok_elim cfg fbs os ofl c p c' h
  rw [resolveKey_absent_unique cfg c hstrat habs] at hch
  have m1 : c + 1 ≤ c2 := buildChain_counter_le fbs (c + 1) fj c2 hch
  have m2 : c2 ≤ c3 := buildOpt_counter_le os c2 osp c3 hos
  have m3 : c3 ≤ c' := buildOpt_counter_le ofl c3 ofp c' hof
  omega

/-- **C5 (amended).**  For every Step compiled with `HASH` strategy and no
truthy explicit key (unset, or the falsy empty string), the compiled
payload carries no `idempotentKey` field, on every compilation; for every
Step compiled with `UNIQUE` strategy and no truthy explicit key, each
compilation mints a fresh key, so two successive compilations of the same
Step produce two distinct keys; and a *non-empty* explicit key set by the
caller is always used verbatim, overriding the strategy (the original
claim's "always verbatim" fails on the empty string — see the
counterexample). -/
theorem idempotent_key_resolution :
    (∀ (s : Step) (c : Nat) (p : JobPayload) (c' : Nat),
      s.cfg.idempotentStrategy = .HASH →
      (s.cfg.idempotentKey = none ∨ s.cfg.idempotentKey = some "") →
      buildJobPayload s c = .ok (p, c') → p.fields.idempotentKey = none)
    ∧ (∀ (s : Step) (c : Nat) (p : JobPayload) (c' : Nat) (k : String),
        s.cfg.idempotentKey = some k → k ≠ "" →
        buildJobPayload s c = .ok (p, c') → p.fields.idempotentKey = some k)
    ∧ (∀ (s : Step) (c : Nat) (p1 : JobPayload) (c1 : Nat) (p2 : JobPayload)
        (c2 : Nat),
        s.cfg.idempotentStrategy = .UNIQUE →
        (s.cfg.idempotentKey = none ∨ s.cfg.idempotentKey = some "") →
        buildJobPayload s c = .ok (p1, c1) →
        buildJobPayload s c1 = .ok (p2, c2) →
        p1.fields.idempotentKey = some (uuidv4 c)
        ∧ p2.fields.idempotentKey = some (uuidv4 c1)
        ∧ p1.fields.idempotentKey ≠ p2.fields.idempotentKey) := by
  refine ⟨?_, ?_, ?_⟩
  · intro s c p c' hstrat habs h
    obtain ⟨cfg, fbs, os, ofl⟩ := s
    simp only [Step.cfg] at hstrat habs
    rw [buildJobPayload_key cfg fbs os ofl c p c' h,
      resolveKey_absent_hash cfg c hstrat habs]
  · intro s c p c' k hkey hne h
    obtain ⟨cfg, fbs, os, ofl⟩ := s
    simp only [Step.cfg] at hkey
    rw [buildJobPayload_key cfg fbs os ofl c p c' h,
      resolveKey_explicit cfg c k hkey hne]
  · intro s c p1 c1 p2 c2 hstrat habs h1 h2
    obtain ⟨cfg, fbs, os, ofl⟩ := s
    simp only [Step.cfg] at hstrat habs
    have k1 : p1.fields.idempotentKey = some (uuidv4 c) := by
      rw [buildJobPayload_key cfg fbs os ofl c p1 c1 h1,
        resolveKey_absent_unique cfg c hstrat habs]
    have k2 : p2.fields.idempotentKey = some (uuidv4 c1) := by
      rw [buildJobPayload_key cfg fbs os ofl c1 p2 c2 h2,
        resolveKey_absent_unique cfg c1 hstrat habs]
    have hadv : c + 1 ≤ c1 :=
      buildJobPayload_unique_advances cfg fbs os ofl c p1 c1 hstrat habs h1
    refine ⟨k1, k2, ?_⟩
    rw [k1, k2]
    intro heq
    have := uuidv4_injective (Option.some.injEq _ _ ▸ heq : uuidv4 c = uuidv4 c1)
    omega

/-- Witness for `idempotent_key_resolution`: an explicit non-empty key is
copied verbatim into the compiled payload. -/
theorem idempotent_key_resolution_witness :
    (JobPayload.mk (payloadFieldsOf explicitKeyStep.cfg "https://x.example"
        (some "order-42")) none none none).fields.idempotentKey
      = some "order-42" :=
  (idempotent_key_resolution).2.1 explicitKeyStep 0
    (JobPayload.mk (payloadFieldsOf explicitKeyStep.cfg "https://x.example"
        (some "order-42")) none none none) 0 "order-42" rfl (by decide)
    (by simp [explicitKeyStep, Step.new, Step.url, Step.idempotentKey, Step.cfg,
      buildJobPayload, buildChain, buildOpt, resolveKey, defaultStepConfig])

/-- **C5 counterexample.**  The claim "an explicit key set by the caller is
always used verbatim" fails on the empty string: with `UNIQUE` strategy and
the key explicitly set to `""`, compilation mints a fresh identifier
instead of using `""` verbatim (JS truthiness treats `""` as absent). -/
theorem explicit_empty_key_counterexample :
    (buildJobPayload emptyKeyUniqueStep 0).map (fun x => x.1.fields.idempotentKey)
      = .ok (some (uuidv4 0))
    ∧ some (uuidv4 0) ≠ some ("" : String) := by
  constructor
  · simp [emptyKeyUniqueStep, Step.new, Step.url, Step.idempotentStrategy,
      Step.idempotentKey, buildJobPayload, buildChain, buildOpt, resolveKey,
      resolveKeyStrategy, defaultStepConfig, payloadFieldsOf, JobPayload.fields,
      Except.map]
  · intro h
    have := Option.some.injEq (uuidv4 0) "" ▸ h
    simp [uuidv4] at this


theorem attachChain_fields_trigger (p : JobPayload) (trg : Trigger)
    (tail : Option JobPayload) :
    (attachChain p trg tail).fields.trigger = some trg := by
  obtain ⟨f, fb, os, ofl⟩ := p
  cases tail <;> rfl

theorem spine_mk (f : PayloadFields) (fb os ofl : Option JobPayload) :
    (JobPayload.mk f fb os ofl).spine = (f.url, f.trigger) :: spineOpt fb := by
  cases fb <;> simp [JobPayload.spine, spineOpt]

/-- The spine of a compiled chain of branches with no own sub-branches is
exactly the declared branch list: URLs in declared order, each carrying its
originating trigger. -/
theorem buildChain_spine (fbs : List (Step × Trigger)) :
    ∀ (c : Nat) (r : Option JobPayload) (c' : Nat),
      buildChain fbs c = .ok (r, c') →
      (∀ st trg, (st, trg) ∈ fbs → st.fallbackSteps = []) →
      spineOpt r = fbs.map (fun x => ((x.1.cfg.url).getD "", some x.2)) := by
  induction fbs with
  | nil =>
    intro c r c' h _
    simp only [buildChain, Except.ok.injEq, Prod.mk.injEq] at h
    rw [← h.1]
    simp [spineOpt]
  | cons hd rest ihr =>
    rcases hd with ⟨st, trg⟩
    intro c r c' h hbr
    rw [buildChain] at h
    rcases hch : buildChain rest c with e | ⟨tail, c1⟩
    · simp only [hch] at h
      exact Except.noConfusion h
    · simp only [hch] at h
      rcases hb : buildJobPayload st c1 with e | ⟨p, c2⟩
      · simp only [hb] at h
        exact Except.noConfusion h
      · simp only [hb, Except.ok.injEq, Prod.mk.injEq] at h
        obtain ⟨cfg, sfbs, sos, sofl⟩ := st
        have hempty : sfbs = [] := by
          have := hbr (.mk cfg sfbs sos sofl) trg (List.mem_cons_self _ _)
          simpa [Step.fallbackSteps] using this
        subst hempty
        obtain ⟨u, fj, cx, osp, cy, ofp, hu, hch0, hos0, hof0, hp⟩ :=
          buildJobPayload_ok_elim cfg [] sos sofl c1 p c2 hb
        have hfj : fj = none := by
          simp only [buildChain, Except.ok.injEq, Prod.mk.injEq] at hch0
          exact hch0.1.symm
        subst hfj
        have hattach : attachChain (JobPayload.mk (payloadFieldsOf cfg u
            (resolveKey cfg c1).1) none osp ofp) trg tail
            = JobPayload.mk ({ payloadFieldsOf cfg u (resolveKey cfg c1).1 with
                trigger := some trg }) tail osp ofp := by
          cases tail <;> rfl
        have htail := ihr c tail c1 hch
          (fun st' trg' hm => hbr st' trg' (List.mem_cons_of_mem _ hm))
        rw [← h.1, hp, hattach, spineOpt, spine_mk]
        simp [payloadFieldsOf, hu, htail, Step.cfg]

/-- **C6.**  Compilation lowers the ordered branch list into a singly
linked `fallbackJob` chain preserving declared order as first-to-try, each
compiled node carrying its originating trigger condition (the spine of the
compiled chain is exactly the declared `(url, trigger)` list); and a Step
with one fallback branch and an `onSuccess` continuation compiles to a
payload whose `fallbackJob` is non-null and carries the branch trigger, and
whose `onSuccess` is the full recursively compiled JobDescription of the
continuation. -/
theorem fallback_chain_compilation :
    (∀ (fbs : List (Step × Trigger)) (c : Nat) (r : Option JobPayload) (c' : Nat),
      buildChain fbs c = .ok (r, c') →
      (∀ st trg, (st, trg) ∈ fbs → st.fallbackSteps = []) →
      spineOpt r = fbs.map (fun x => ((x.1.cfg.url).getD "", some x.2)))
    ∧ (∀ (s b t : Step) (trg : Trigger) (c : Nat) (p : JobPayload) (c' : Nat),
        s.fallbackSteps = [(b, trg)] → s.onSuccessStep = some t →
        buildJobPayload s c = .ok (p, c') →
        (∃ fp, p.fallbackJob = some fp ∧ fp.fields.trigger = some trg)
        ∧ (∃ (q : JobPayload) (cq cq' : Nat),
            p.onSuccess = some q ∧ buildJobPayload t cq = .ok (q, cq'))) := by
  constructor
  · intro fbs c r c' h hbr
    exact buildChain_spine fbs c r c' h hbr
  · intro s b t trg c p c' hfbs hos hbuild
    obtain ⟨cfg, sfbs, sos, sofl⟩ := s
    simp only [Step.fallbackSteps] at hfbs
    simp only [Step.onSuccessStep] at hos
    subst hfbs
    subst hos
    obtain ⟨u, fj, c2, osp, c3, ofp, hu, hch, hosp, hof, hp⟩ :=
      buildJobPayload_ok_elim cfg [(b, trg)] (some t) sofl c p c' hbuild
    rw [buildChain] at hch
    simp only [buildChain] at hch
    rcases hbb : buildJobPayload b (resolveKey cfg c).2 with e | ⟨pb, cb⟩
    · simp only [hbb] at hch
      exact Except.noConfusion hch
    · simp only [hbb, Except.ok.injEq, Prod.mk.injEq] at hch
      rw [buildOpt] at hosp
      rcases hbt : buildJobPayload t c2 with e | ⟨q, cq2⟩
      · simp only [hbt] at hosp
        exact Except.noConfusion hosp
      · simp only [hbt, Except.ok.injEq, Prod.mk.injEq] at hosp
        subst hp
        constructor
        · refine ⟨attachChain pb trg none, ?_,
            attachChain_fields_trigger pb trg none⟩
          simp [JobPayload.fallbackJob, ← hch.1]
        · refine ⟨q, c2, cq2, ?_, hbt⟩
          simp [JobPayload.onSuccess, ← hosp.1]

/-- Witness for `fallback_chain_compilation` at a concrete step with one
branch and one continuation. -/
theorem fallback_chain_compilation_witness :
    (∃ fp, c6Payload.fallbackJob = some fp
      ∧ fp.fields.trigger = some (.onError [500]))
    ∧ (∃ (q : JobPayload) (cq cq' : Nat),
        c6Payload.onSuccess = some q
        ∧ buildJobPayload (simpleFrugal "https://c") cq = .ok (q, cq')) := by
  have hbB : buildJobPayload (simpleFrugal "https://b") 0 = .ok (c6BranchPayload, 0) :=
    buildJobPayload_ok_intro (frugalCfg "https://b") [] none none 0 "https://b"
      none 0 none 0 none 0 none 0 rfl rfl (buildChain_nil 0) (buildOpt_none 0)
      (buildOpt_none 0)
  have hbC : buildJobPayload (simpleFrugal "https://c") 0 = .ok (c6ContPayload, 0) :=
    buildJobPayload_ok_intro (frugalCfg "https://c") [] none none 0 "https://c"
      none 0 none 0 none 0 none 0 rfl rfl (buildChain_nil 0) (buildOpt_none 0)
      (buildOpt_none 0)
  have hchain : buildChain [(simpleFrugal "https://b", Trigger.onError [500])] 0
      = .ok (some (attachChain c6BranchPayload (.onError [500]) none), 0) :=
    buildChain_cons (simpleFrugal "https://b") (.onError [500]) [] 0 none 0
      c6BranchPayload 0 (buildChain_nil 0) hbB
  have hmain : buildJobPayload c6Step 0 = .ok (c6Payload, 0) :=
    buildJobPayload_ok_intro (urlOnlyCfg "https://a")
      [(simpleFrugal "https://b", .onError [500])]
      (some (simpleFrugal "https://c")) none 0 "https://a" none 0
      (some (attachChain c6BranchPayload (.onError [500]) none)) 0
      (some c6ContPayload) 0 none 0 rfl rfl hchain
      (buildOpt_some (simpleFrugal "https://c") 0 c6ContPayload 0 hbC)
      (buildOpt_none 0)
  exact (fallback_chain_compilation).2 c6Step (simpleFrugal "https://b")
    (simpleFrugal "https://c") (.onError [500]) 0 c6Payload 0 rfl rfl hmain

end EZThrottle
